import Mathlib

/-!
# Verification of the DFAE_Backend battery-log service

Shallow embedding of `src/Battery.py` and `src/main.py`.

A MAVLink log is modelled as the list of messages that
`mavutil.mavlink_connection(...).recv_match(blocking=False)` yields before
returning `None`.  Each message carries its `get_type()` name and a field
table (attribute name to numeric value); Python attribute access
`msg.Name` is `getattr` (raising `AttributeError` when absent, modelled by
`Except.error`), and `hasattr(msg, 'Name')` is presence in the table.
Python floats are modelled as exact rationals `ℚ`.
-/

/-- A decoded MAVLink message: its `get_type()` name and its fields as an
association list from attribute name to numeric value. -/
structure MavMsg where
  msgType : String
  fields : List (String × ℚ)
deriving DecidableEq, Repr

/-- Python `msg.get_type()`. -/
def MavMsg.getType (m : MavMsg) : String := m.msgType

/-- Python attribute read `msg.name`: `some v` when the attribute exists,
`none` when it would raise `AttributeError`. -/
def MavMsg.getattr (m : MavMsg) (name : String) : Option ℚ :=
  m.fields.lookup name

/-- Python `hasattr(msg, name)`. -/
def MavMsg.hasattr (m : MavMsg) (name : String) : Bool :=
  (m.getattr name).isSome

/-- One element of the `battery_data` list built in
`Battery.process_battery_data` (the dict literal at Battery.py lines
26-38). -/
structure BatteryRecord where
  timestamp : ℚ
  Volt : ℚ
  VoltR : Option ℚ
  Curr : ℚ
  CurrTot : Option ℚ
  EnrgTot : Option ℚ
  Temp : Option ℚ
  Res : Option ℚ
  RemPct : Option ℚ
  H : Option ℚ
  SH : Option ℚ
deriving DecidableEq, Repr

/-- Build the battery-data dict for one BAT message (Battery.py lines
26-38): `TimeUS`, `Volt` and `Curr` are read unconditionally (a missing
one raises `AttributeError`), the remaining fields are guarded by
`hasattr` and default to `None`. -/
def processBatMsg (m : MavMsg) : Except String BatteryRecord :=
  match m.getattr "TimeUS" with
  | none => Except.error "AttributeError: TimeUS"
  | some timeUS =>
    match m.getattr "Volt" with
    | none => Except.error "AttributeError: Volt"
    | some volt =>
      match m.getattr "Curr" with
      | none => Except.error "AttributeError: Curr"
      | some curr =>
        Except.ok
          { timestamp := timeUS / 1000000
            Volt := volt
            VoltR := m.getattr "VoltR"
            Curr := curr
            CurrTot := m.getattr "CurrTot"
            EnrgTot := m.getattr "EnrgTot"
            Temp := m.getattr "Temp"
            Res := m.getattr "Res"
            RemPct := m.getattr "RemPct"
            H := m.getattr "H"
            SH := m.getattr "SH" }

/-- The message loop of `process_battery_data` (Battery.py lines 15-38):
walks the log, and for every message whose type is `"BAT"` first reads
`msg.Volt` into `voltages`, then appends the battery dict to
`battery_data`; other message types contribute nothing.  Any
`AttributeError` aborts the whole call (the `except` at lines 60-62
re-raises). -/
def collectBattery : List MavMsg → Except String (List BatteryRecord × List ℚ)
  | [] => Except.ok ([], [])
  | m :: rest =>
    if m.getType = "BAT" then
      match m.getattr "Volt" with
      | none => Except.error "AttributeError: Volt"
      | some voltage =>
        match processBatMsg m with
        | Except.error e => Except.error e
        | Except.ok record =>
          match collectBattery rest with
          | Except.error e => Except.error e
          | Except.ok (records, volts) =>
            Except.ok (record :: records, voltage :: volts)
    else collectBattery rest

/-- Python `max(voltages) if voltages else None`. -/
def pyMax : List ℚ → Option ℚ
  | [] => none
  | v :: vs => some (vs.foldl max v)

/-- Python `min(voltages) if voltages else None`. -/
def pyMin : List ℚ → Option ℚ
  | [] => none
  | v :: vs => some (vs.foldl min v)

/-- Python `statistics.mean(voltages) if voltages else None` (the exact
arithmetic mean). -/
def pyMean (l : List ℚ) : Option ℚ :=
  match l with
  | [] => none
  | _ :: _ => some (l.sum / (l.length : ℚ))

/-- The value returned by `process_battery_data` (Battery.py lines
53-58). -/
structure BatteryResult where
  battery_data : List BatteryRecord
  max_voltage : Option ℚ
  min_voltage : Option ℚ
  mean_voltage : Option ℚ
deriving DecidableEq, Repr

/-- `Battery.process_battery_data`: drain the log collecting BAT records
and voltages, then compute `max`/`min`/`mean` of the voltages (lines
44-47), or `None` for each when no voltage was collected. -/
def process_battery_data (log : List MavMsg) : Except String BatteryResult :=
  match collectBattery log with
  | Except.error e => Except.error e
  | Except.ok (battery_data, voltages) =>
    Except.ok
      { battery_data := battery_data
        max_voltage := pyMax voltages
        min_voltage := pyMin voltages
        mean_voltage := pyMean voltages }

/-- The `voltages` list as the claim describes it: the `Volt` attribute of
each message of type `"BAT"`, in stream order (messages whose `Volt` read
would raise are not reached on the success path). -/
def batVoltages (log : List MavMsg) : List ℚ :=
  log.filterMap (fun m => if m.getType = "BAT" then m.getattr "Volt" else none)

/-- Per-message decoding of the BAT-filtered log, the claim's description
of the loop: one record per BAT message, in stream order.  Stated for
comparison with `collectBattery`. -/
def batRecordsSpec : List MavMsg → Except String (List BatteryRecord)
  | [] => Except.ok []
  | m :: rest =>
    match processBatMsg m with
    | Except.error e => Except.error e
    | Except.ok r =>
      match batRecordsSpec rest with
      | Except.error e => Except.error e
      | Except.ok rs => Except.ok (r :: rs)

/-! ## main.py -/

/-- The retry loop of `safe_remove_file` (main.py lines 36-43), parameterised
by which attempt numbers of `os.remove` would succeed.  Arguments:
remaining iterations of `range(retries)` and the number of attempts
already made; returns the Python return value together with the total
number of deletion attempts performed.  Every exception from `os.remove`
is caught, so the function never raises. -/
def safeRemoveLoop (att : Nat → Bool) : Nat → Nat → Bool × Nat
  | 0, made => (false, made)
  | n + 1, made =>
    if att made then (true, made + 1)
    else safeRemoveLoop att n (made + 1)

/-- Function `main.safe_remove_file` (lines 34-45): try `os.remove` up to `retries`
times, returning `True` on the first success and `False` when every
attempt failed. -/
def safe_remove_file (att : Nat → Bool) (retries : Nat) : Bool × Nat :=
  safeRemoveLoop att retries 0

/-- The JSON object assembled at main.py lines 127-134 and stored under
the key. -/
structure StoredData where
  battery_data : List BatteryRecord
  max_voltage : Option ℚ
  min_voltage : Option ℚ
  mean_voltage : Option ℚ
  message_types : List String
  timestamp : ℚ
deriving DecidableEq, Repr

/-- The `processed_data` directory: keyed JSON files, most recent write
first (a rewrite of `key.json` shadows the old contents). -/
def Store : Type := List (String × StoredData)

/-- Function `main.save_processed_data` (lines 47-57): write `data` to
`<key>.json` and return `True`.  The model's file write always succeeds;
the `except` branch (OS-level write failure, returning `False`) is
outside the model. -/
def save_processed_data (store : Store) (key : String) (data : StoredData) :
    Bool × Store :=
  (true, (key, data) :: store)

/-- Outcome of `GET /data/<key>`: either the stored JSON with HTTP 200, or
an error body with HTTP 404. -/
inductive GetResult
  | found (data : StoredData) (status : Nat)
  | notFound (error : String) (status : Nat)
deriving DecidableEq, Repr

/-- Function `main.get_stored_data` (lines 156-171): 404 with error `"Data not
found"` when `<key>.json` does not exist, otherwise the file's JSON with
200. -/
def get_stored_data (store : Store) (key : String) : GetResult :=
  match List.lookup key store with
  | some d => GetResult.found d 200
  | none => GetResult.notFound "Data not found" 404

/-- Python `lst[:n]` for an integer `n`: a nonnegative bound takes the
first `n` elements, a negative bound drops the last `|n|`. -/
def pySliceTo (l : List BatteryRecord) (n : Int) : List BatteryRecord :=
  if 0 ≤ n then l.take n.toNat
  else l.take ((l.length : Int) + n).toNat

/-- Python `round(x, 2)`: round half to even at two decimal places
(exact-rational model of float `round`). -/
def pyRound2 (q : ℚ) : ℚ :=
  let s : ℚ := q * 100
  let f : ℤ := ⌊s⌋
  let frac : ℚ := s - f
  let r : ℤ :=
    if frac < 1 / 2 then f
    else if 1 / 2 < frac then f + 1
    else if f % 2 = 0 then f else f + 1
  (r : ℚ) / 100

/-- Python `sorted(message_types)` (main.py lines 116 and 132): the distinct
`get_type()` names of all messages read from the log, in ascending
order. -/
def sortedMessageTypes (log : List MavMsg) : List String :=
  List.insertionSort (fun a b => a ≤ b) (log.map MavMsg.getType).dedup

/-- The `response_data` selection of main.py line 124:
`result["battery_data"] if full_data or limit is None else
result["battery_data"][:limit]`. -/
def uploadResponseData (limitArg : Option Int) (fullArg : Option String)
    (res : BatteryResult) : List BatteryRecord :=
  match limitArg with
  | none => res.battery_data
  | some n =>
    if (fullArg.getD "false").toLower = "true" then res.battery_data
    else pySliceTo res.battery_data n

/-- The parts of a `POST /upload` request that `upload_bin` consults. -/
structure UploadRequest where
  hasFilePart : Bool
  filename : String
  keyArg : Option String
  limitArg : Option Int
  fullArg : Option String
  tempSaveOk : Bool
deriving DecidableEq, Repr

/-- The HTTP response of `upload_bin`, one constructor per `return`
site. -/
inductive UploadResult
  | badRequest (error : String) (message_types : Option (List String))
  | serverError (error : String)
  | success (key : String) (battery_data : List BatteryRecord)
      (max_voltage min_voltage mean_voltage : Option ℚ)
      (message_types : List String)
deriving DecidableEq, Repr

/-- HTTP status code of each `upload_bin` response. -/
def UploadResult.status : UploadResult → Nat
  | UploadResult.badRequest _ _ => 400
  | UploadResult.serverError _ => 500
  | UploadResult.success _ _ _ _ _ _ => 200

/-- Whether the response is the 200 success body. -/
def UploadResult.isSuccess : UploadResult → Bool
  | UploadResult.success _ _ _ _ _ _ => true
  | _ => false

/-- Function `main.upload_bin` (lines 59-154).  `logResult` is what reading the
uploaded log yields: the message list, or the exception raised while
draining it.  `now` is `time.time()`.  Returns the HTTP response, the
updated store, and how many times `safe_remove_file` was invoked on the
temp path.  Control flow follows the source: the file-part and filename
checks, the temp save, the message-type collection loop (lines 94-99),
`process_battery_data`, cleanup (line 110), the empty-battery 400 (lines
112-117), the `limit`/`full` slicing (lines 119-124), store and respond;
any exception inside the big `try` lands in the handler at lines 151-154,
which also cleans up. -/
def upload_bin (req : UploadRequest) (logResult : Except String (List MavMsg))
    (store : Store) (now : ℚ) : UploadResult × Store × Nat :=
  if ¬ req.hasFilePart then
    (UploadResult.badRequest "No file part" none, store, 0)
  else if req.filename = "" then
    (UploadResult.badRequest "No selected file" none, store, 0)
  else
    let key := req.keyArg.getD (toString ⌊now⌋)
    if ¬ req.tempSaveOk then
      (UploadResult.serverError "Failed to save file", store, 0)
    else
      match logResult with
      | Except.error e =>
        (UploadResult.serverError ("Error processing file: " ++ e), store, 1)
      | Except.ok log =>
        let message_types := sortedMessageTypes log
        match process_battery_data log with
        | Except.error e =>
          (UploadResult.serverError ("Error processing file: " ++ e), store, 1)
        | Except.ok result =>
          if result.battery_data.isEmpty then
            (UploadResult.badRequest "No BAT messages found in the log"
              (some message_types), store, 1)
          else
            let response_data :=
              uploadResponseData req.limitArg req.fullArg result
            let stored : StoredData :=
              { battery_data := response_data
                max_voltage := result.max_voltage.map pyRound2
                min_voltage := result.min_voltage.map pyRound2
                mean_voltage := result.mean_voltage.map pyRound2
                message_types := message_types
                timestamp := now }
            match save_processed_data store key stored with
            | (true, store') =>
              (UploadResult.success key response_data stored.max_voltage
                stored.min_voltage stored.mean_voltage stored.message_types,
                store', 1)
            | (false, _) =>
              (UploadResult.serverError "Failed to save processed data",
                store, 1)

/-! ## Concrete inputs used in scenario clauses, witnesses and
counterexamples -/

/-- A BAT message with the three required attributes and `Curr = 7`. -/
def mkBatMsg (t v : ℚ) : MavMsg :=
  { msgType := "BAT", fields := [("TimeUS", t), ("Volt", v), ("Curr", 7)] }

/-- A format-definition frame (no battery attributes). -/
def fmtMsg : MavMsg := { msgType := "FMT", fields := [] }

/-- The spec scenario stream: a format-definition frame for BAT followed
by three BAT frames with `Volt` 12.6, 12.4, 12.5. -/
def scenarioLog : List MavMsg :=
  [fmtMsg, mkBatMsg 1000000 12.6, mkBatMsg 2000000 12.4, mkBatMsg 3000000 12.5]

/-- The record produced for one scenario BAT frame. -/
def scenarioRecord (ts v : ℚ) : BatteryRecord :=
  { timestamp := ts, Volt := v, VoltR := none, Curr := 7, CurrTot := none,
    EnrgTot := none, Temp := none, Res := none, RemPct := none, H := none,
    SH := none }

/-- The records of the scenario stream. -/
def scenarioRecords : List BatteryRecord :=
  [scenarioRecord 1 12.6, scenarioRecord 2 12.4, scenarioRecord 3 12.5]

/-- The voltages of the scenario stream. -/
def scenarioVolts : List ℚ := [12.6, 12.4, 12.5]

/-- The battery result of the scenario stream. -/
def scenarioResult : BatteryResult :=
  { battery_data := scenarioRecords
    max_voltage := some 12.6
    min_voltage := some 12.4
    mean_voltage := some 12.5 }

/-- The `process_battery_data` value for a log with no BAT messages. -/
def emptyBatteryResult : BatteryResult :=
  { battery_data := [], max_voltage := none, min_voltage := none,
    mean_voltage := none }

/-- A well-formed upload request with no query parameters beyond the
key. -/
def plainRequest : UploadRequest :=
  { hasFilePart := true, filename := "log.bin", keyArg := some "k",
    limitArg := none, fullArg := none, tempSaveOk := true }

/-- A well-formed upload request with `?limit=-1`. -/
def limitNegRequest : UploadRequest :=
  { hasFilePart := true, filename := "log.bin", keyArg := some "k",
    limitArg := some (-1), fullArg := none, tempSaveOk := true }

/-- A log with a single GPS message and no BAT messages. -/
def gpsLog : List MavMsg := [{ msgType := "GPS", fields := [("Lat", 7)] }]

/-- A sample stored JSON object. -/
def sampleStored : StoredData :=
  { battery_data := scenarioRecords, max_voltage := some 12.6,
    min_voltage := some 12.4, mean_voltage := some 12.5,
    message_types := ["BAT", "FMT"], timestamp := 0 }

/-! ## Helper lemmas: `processBatMsg` and `collectBattery` -/

/-- Inversion of a successful `processBatMsg`: the record's fields in
terms of the message's attributes. -/
theorem processBatMsg_ok {m : MavMsg} {r : BatteryRecord}
    (h : processBatMsg m = Except.ok r) :
    ∃ t, m.getattr "TimeUS" = some t ∧ r.timestamp = t / 1000000 ∧
      m.getattr "Volt" = some r.Volt ∧ m.getattr "Curr" = some r.Curr ∧
      r.VoltR = m.getattr "VoltR" ∧ r.CurrTot = m.getattr "CurrTot" ∧
      r.EnrgTot = m.getattr "EnrgTot" ∧ r.Temp = m.getattr "Temp" ∧
      r.Res = m.getattr "Res" ∧ r.RemPct = m.getattr "RemPct" ∧
      r.H = m.getattr "H" ∧ r.SH = m.getattr "SH" := by
  unfold processBatMsg at h
  cases ht : m.getattr "TimeUS" with
  | none => rw [ht] at h; exact absurd h (by simp)
  | some t =>
    rw [ht] at h
    cases hv : m.getattr "Volt" with
    | none => rw [hv] at h; exact absurd h (by simp)
    | some v =>
      rw [hv] at h
      cases hc : m.getattr "Curr" with
      | none => rw [hc] at h; exact absurd h (by simp)
      | some c =>
        rw [hc] at h
        injection h with h
        subst h
        exact ⟨t, rfl, rfl, rfl, rfl, rfl, rfl, rfl, rfl, rfl, rfl, rfl, rfl⟩

/-- A message with the three required attributes always decodes, and the
optional fields are looked up as-is. -/
theorem processBatMsg_total {m : MavMsg} {t v c : ℚ}
    (ht : m.getattr "TimeUS" = some t) (hv : m.getattr "Volt" = some v)
    (hc : m.getattr "Curr" = some c) :
    processBatMsg m = Except.ok
      { timestamp := t / 1000000, Volt := v, VoltR := m.getattr "VoltR",
        Curr := c, CurrTot := m.getattr "CurrTot",
        EnrgTot := m.getattr "EnrgTot", Temp := m.getattr "Temp",
        Res := m.getattr "Res", RemPct := m.getattr "RemPct",
        H := m.getattr "H", SH := m.getattr "SH" } := by
  unfold processBatMsg
  rw [ht, hv, hc]

/-- Unfolding `batVoltages` over a BAT message. -/
theorem batVoltages_cons_bat {m : MavMsg} {rest : List MavMsg} {v : ℚ}
    (hb : m.getType = "BAT") (hv : m.getattr "Volt" = some v) :
    batVoltages (m :: rest) = v :: batVoltages rest := by
  simp [batVoltages, List.filterMap_cons, hb, hv]

/-- Unfolding `batVoltages` over a non-BAT message. -/
theorem batVoltages_cons_other {m : MavMsg} {rest : List MavMsg}
    (hb : ¬ m.getType = "BAT") :
    batVoltages (m :: rest) = batVoltages rest := by
  simp [batVoltages, List.filterMap_cons, hb]

/-- Inversion of the collection loop: a successful
`collectBattery` decodes exactly the BAT-filtered messages, in order, and
the voltages list is the `Volt` column of the records, which is the
`Volt` attribute of the BAT messages in stream order. -/
theorem collectBattery_ok :
    ∀ (log : List MavMsg) (recs : List BatteryRecord) (volts : List ℚ),
      collectBattery log = Except.ok (recs, volts) →
      batRecordsSpec (log.filter fun m => m.getType == "BAT") =
          Except.ok recs ∧
        volts = recs.map BatteryRecord.Volt ∧
        volts = batVoltages log
  | [], recs, volts, h => by
    unfold collectBattery at h
    injection h with h
    rw [Prod.ext_iff] at h
    obtain ⟨h1, h2⟩ := h
    subst h1; subst h2
    simp [batRecordsSpec, batVoltages]
  | m :: rest, recs, volts, h => by
    by_cases hb : m.getType = "BAT"
    · rw [collectBattery, if_pos hb] at h
      cases hv : m.getattr "Volt" with
      | none => rw [hv] at h; exact absurd h (by simp)
      | some voltage =>
        rw [hv] at h
        cases hp : processBatMsg m with
        | error e => rw [hp] at h; exact absurd h (by simp)
        | ok record =>
          rw [hp] at h
          cases hr : collectBattery rest with
          | error e => rw [hr] at h; exact absurd h (by simp)
          | ok pr =>
            obtain ⟨records, volts'⟩ := pr
            rw [hr] at h
            injection h with h
            rw [Prod.ext_iff] at h
            obtain ⟨h1, h2⟩ := h
            subst h1; subst h2
            obtain ⟨ih1, ih2, ih3⟩ := collectBattery_ok rest records volts' hr
            have hrv : record.Volt = voltage := by
              obtain ⟨t, _, _, hv', _⟩ := processBatMsg_ok hp
              rw [hv] at hv'
              injection hv' with hv''
              exact hv''.symm
            refine ⟨?_, ?_, ?_⟩
            · rw [List.filter_cons_of_pos (by simp [hb])]
              rw [batRecordsSpec, hp, ih1]
            · simp [ih2, hrv]
            · rw [batVoltages_cons_bat hb hv, ← ih3]
    · rw [collectBattery, if_neg hb] at h
      obtain ⟨ih1, ih2, ih3⟩ := collectBattery_ok rest recs volts h
      refine ⟨?_, ih2, ?_⟩
      · rw [List.filter_cons_of_neg (by simp [hb])]
        exact ih1
      · rw [batVoltages_cons_other hb]
        exact ih3

/-! ## Helper lemmas: `max`/`min` folds and `batRecordsSpec` -/

/-- The seed is bounded by the `max` fold. -/
theorem le_foldl_max_init : ∀ (vs : List ℚ) (v : ℚ), v ≤ vs.foldl max v
  | [], _ => le_refl _
  | a :: vs, v =>
    le_trans (le_max_left v a) (le_foldl_max_init vs (max v a))

/-- Every member is bounded by the `max` fold. -/
theorem le_foldl_max_mem :
    ∀ (vs : List ℚ) (v x : ℚ), x ∈ vs → x ≤ vs.foldl max v
  | a :: vs, v, x, hx => by
    rcases List.mem_cons.mp hx with h | h
    · subst h
      exact le_trans (le_max_right v x) (le_foldl_max_init vs (max v x))
    · exact le_foldl_max_mem vs (max v a) x h

/-- The `max` fold is one of the seed or the members. -/
theorem foldl_max_mem : ∀ (vs : List ℚ) (v : ℚ), vs.foldl max v ∈ v :: vs
  | [], v => List.mem_singleton.mpr rfl
  | a :: vs, v => by
    have h := foldl_max_mem vs (max v a)
    rcases List.mem_cons.mp h with h | h
    · rcases max_choice v a with hm | hm <;> rw [hm] at h <;>
        simp [List.foldl_cons, h, hm]
    · simp [List.foldl_cons]
      right; right
      exact h

/-- The `min` fold bounds the seed. -/
theorem foldl_min_init_le : ∀ (vs : List ℚ) (v : ℚ), vs.foldl min v ≤ v
  | [], _ => le_refl _
  | a :: vs, v =>
    le_trans (foldl_min_init_le vs (min v a)) (min_le_left v a)

/-- The `min` fold bounds every member. -/
theorem foldl_min_le_mem :
    ∀ (vs : List ℚ) (v x : ℚ), x ∈ vs → vs.foldl min v ≤ x
  | a :: vs, v, x, hx => by
    rcases List.mem_cons.mp hx with h | h
    · subst h
      exact le_trans (foldl_min_init_le vs (min v x)) (min_le_right v x)
    · exact foldl_min_le_mem vs (min v a) x h

/-- The `min` fold is one of the seed or the members. -/
theorem foldl_min_mem : ∀ (vs : List ℚ) (v : ℚ), vs.foldl min v ∈ v :: vs
  | [], v => List.mem_singleton.mpr rfl
  | a :: vs, v => by
    have h := foldl_min_mem vs (min v a)
    rcases List.mem_cons.mp h with h | h
    · rcases min_choice v a with hm | hm <;> rw [hm] at h <;>
        simp [List.foldl_cons, h, hm]
    · simp [List.foldl_cons]
      right; right
      exact h

/-- One record per decoded message. -/
theorem batRecordsSpec_length :
    ∀ (l : List MavMsg) (rs : List BatteryRecord),
      batRecordsSpec l = Except.ok rs → rs.length = l.length
  | [], rs, h => by
    unfold batRecordsSpec at h
    injection h with h
    rw [← h]
    rfl
  | m :: rest, rs, h => by
    rw [batRecordsSpec] at h
    cases hp : processBatMsg m with
    | error e => rw [hp] at h; exact absurd h (by simp)
    | ok r =>
      rw [hp] at h
      cases hs : batRecordsSpec rest with
      | error e => rw [hs] at h; exact absurd h (by simp)
      | ok rs' =>
        rw [hs] at h
        injection h with h
        rw [← h]
        simp [batRecordsSpec_length rest rs' hs]

/-- Every decoded record comes from some message of the decoded list. -/
theorem batRecordsSpec_mem :
    ∀ (l : List MavMsg) (rs : List BatteryRecord),
      batRecordsSpec l = Except.ok rs →
      ∀ r ∈ rs, ∃ m ∈ l, processBatMsg m = Except.ok r
  | [], rs, h, r, hr => by
    unfold batRecordsSpec at h
    injection h with h
    rw [← h] at hr
    exact absurd hr (by simp)
  | m :: rest, rs, h, r, hr => by
    rw [batRecordsSpec] at h
    cases hp : processBatMsg m with
    | error e => rw [hp] at h; exact absurd h (by simp)
    | ok r0 =>
      rw [hp] at h
      cases hs : batRecordsSpec rest with
      | error e => rw [hs] at h; exact absurd h (by simp)
      | ok rs' =>
        rw [hs] at h
        injection h with h
        rw [← h] at hr
        rcases List.mem_cons.mp hr with he | he
        · exact ⟨m, List.mem_cons_self m rest, he ▸ hp⟩
        · obtain ⟨m', hm', hp'⟩ := batRecordsSpec_mem rest rs' hs r he
          exact ⟨m', List.mem_cons_of_mem m hm', hp'⟩

/-! ## Claim theorems -/

/-- C1: for every log whose BAT messages carry voltages,
`process_battery_data` returns `max_voltage`, `min_voltage` and
`mean_voltage` equal to the maximum, minimum and arithmetic mean of the
`Volt` values of all BAT messages; on the spec scenario (BAT frames with
Volt 12.6, 12.4, 12.5) it reports max 12.6, min 12.4, mean 12.5; with no
BAT messages all three aggregates are `None`. -/
theorem battery_aggregates_max_min_mean :
    (∀ (log : List MavMsg) (r : BatteryResult),
        process_battery_data log = Except.ok r →
        (batVoltages log = [] →
          r.max_voltage = none ∧ r.min_voltage = none ∧
            r.mean_voltage = none) ∧
        (batVoltages log ≠ [] →
          ∃ hi lo, r.max_voltage = some hi ∧ r.min_voltage = some lo ∧
            hi ∈ batVoltages log ∧ lo ∈ batVoltages log ∧
            (∀ v ∈ batVoltages log, lo ≤ v ∧ v ≤ hi) ∧
            r.mean_voltage =
              some ((batVoltages log).sum / ((batVoltages log).length : ℚ)))) ∧
    process_battery_data scenarioLog = Except.ok scenarioResult ∧
    scenarioResult.max_voltage = some 12.6 ∧
    scenarioResult.min_voltage = some 12.4 ∧
    scenarioResult.mean_voltage = some 12.5 := by
  refine ⟨?_, by with_unfolding_all rfl, by with_unfolding_all rfl,
    by with_unfolding_all rfl, by with_unfolding_all rfl⟩
  intro log r h
  unfold process_battery_data at h
  cases hc : collectBattery log with
  | error e => rw [hc] at h; exact absurd h (by simp)
  | ok pr =>
    obtain ⟨recs, volts⟩ := pr
    rw [hc] at h
    injection h with h
    obtain ⟨-, -, hbv⟩ := collectBattery_ok log recs volts hc
    constructor
    · intro hnil
      rw [hnil] at hbv
      subst hbv
      rw [← h]
      exact ⟨rfl, rfl, rfl⟩
    · intro hne
      rw [← hbv] at hne ⊢
      cases volts with
      | nil => exact absurd rfl hne
      | cons v vs =>
        refine ⟨vs.foldl max v, vs.foldl min v, ?_, ?_, ?_, ?_, ?_, ?_⟩
        · rw [← h]
          rfl
        · rw [← h]
          rfl
        · exact foldl_max_mem vs v
        · exact foldl_min_mem vs v
        · intro x hx
          rcases List.mem_cons.mp hx with hx | hx
          · subst hx
            exact ⟨foldl_min_init_le vs x, le_foldl_max_init vs x⟩
          · exact ⟨foldl_min_le_mem vs v x hx, le_foldl_max_mem vs v x hx⟩
        · rw [← h]
          rfl

/-- Witness for C1 at a log with no BAT messages: the hypotheses are
satisfiable and the aggregates are all `None`. -/
theorem battery_aggregates_max_min_mean_witness :
    emptyBatteryResult.max_voltage = none ∧
    emptyBatteryResult.min_voltage = none ∧
    emptyBatteryResult.mean_voltage = none :=
  (battery_aggregates_max_min_mean.1 gpsLog emptyBatteryResult
      (by with_unfolding_all rfl)).1 (by with_unfolding_all rfl)

/-- C2: the loop produces exactly one record per BAT message, in stream
order; the voltages list is the `Volt` value of each BAT message in the
same order; other message types contribute nothing. -/
theorem battery_one_record_per_bat_message :
    ∀ (log : List MavMsg) (recs : List BatteryRecord) (volts : List ℚ),
      collectBattery log = Except.ok (recs, volts) →
      process_battery_data log =
          Except.ok { battery_data := recs, max_voltage := pyMax volts,
                      min_voltage := pyMin volts,
                      mean_voltage := pyMean volts } ∧
      batRecordsSpec (log.filter fun m => m.getType == "BAT") =
          Except.ok recs ∧
      recs.length = (log.filter fun m => m.getType == "BAT").length ∧
      volts = recs.map BatteryRecord.Volt ∧
      volts = batVoltages log := by
  intro log recs volts h
  obtain ⟨h1, h2, h3⟩ := collectBattery_ok log recs volts h
  refine ⟨?_, h1, ?_, h2, h3⟩
  · unfold process_battery_data
    rw [h]
  · exact batRecordsSpec_length _ recs h1

/-- Witness for C2 at the scenario log. -/
theorem battery_one_record_per_bat_message_witness :
    process_battery_data scenarioLog =
        Except.ok { battery_data := scenarioRecords,
                    max_voltage := pyMax scenarioVolts,
                    min_voltage := pyMin scenarioVolts,
                    mean_voltage := pyMean scenarioVolts } ∧
    batRecordsSpec (scenarioLog.filter fun m => m.getType == "BAT") =
        Except.ok scenarioRecords ∧
    scenarioRecords.length =
      (scenarioLog.filter fun m => m.getType == "BAT").length ∧
    scenarioVolts = scenarioRecords.map BatteryRecord.Volt ∧
    scenarioVolts = batVoltages scenarioLog :=
  battery_one_record_per_bat_message scenarioLog scenarioRecords
    scenarioVolts (by with_unfolding_all rfl)

/-- An absent attribute (`hasattr` false) reads as `None`. -/
theorem hasattr_false_getattr_none {m : MavMsg} {name : String}
    (h : m.hasattr name = false) : m.getattr name = none := by
  unfold MavMsg.hasattr at h
  cases hx : m.getattr name with
  | none => rfl
  | some v => rw [hx] at h; exact absurd h (by simp)

/-- C6: unit conversion happens on the caller side: each record's
`timestamp` is the raw `TimeUS` divided by 10^6, and `Volt` and `Curr`
are stored at their raw decoded values. -/
theorem timestamp_microseconds_conversion :
    ∀ (log : List MavMsg) (r : BatteryResult),
      process_battery_data log = Except.ok r →
      ∀ rec ∈ r.battery_data, ∃ m ∈ log, m.getType = "BAT" ∧
        ∃ t, m.getattr "TimeUS" = some t ∧ rec.timestamp = t / 1000000 ∧
          m.getattr "Volt" = some rec.Volt ∧
          m.getattr "Curr" = some rec.Curr := by
  intro log r h rec hrec
  unfold process_battery_data at h
  cases hc : collectBattery log with
  | error e => rw [hc] at h; exact absurd h (by simp)
  | ok pr =>
    obtain ⟨recs, volts⟩ := pr
    rw [hc] at h
    injection h with h
    rw [← h] at hrec
    obtain ⟨h1, -, -⟩ := collectBattery_ok log recs volts hc
    obtain ⟨m, hm, hpm⟩ := batRecordsSpec_mem _ recs h1 rec hrec
    rw [List.mem_filter] at hm
    obtain ⟨hml, hmb⟩ := hm
    refine ⟨m, hml, by simpa using hmb, ?_⟩
    obtain ⟨t, ht, hts, hv, hcu, -⟩ := processBatMsg_ok hpm
    exact ⟨t, ht, hts, hv, hcu⟩

/-- Witness for C6 at the scenario log and its first record. -/
theorem timestamp_microseconds_conversion_witness :
    ∃ m ∈ scenarioLog, m.getType = "BAT" ∧
      ∃ t, m.getattr "TimeUS" = some t ∧
        (scenarioRecord 1 12.6).timestamp = t / 1000000 ∧
        m.getattr "Volt" = some (scenarioRecord 1 12.6).Volt ∧
        m.getattr "Curr" = some (scenarioRecord 1 12.6).Curr :=
  timestamp_microseconds_conversion scenarioLog scenarioResult
    (by with_unfolding_all rfl) (scenarioRecord 1 12.6)
    (List.mem_cons_self _ _)

/-- C7: per-field optional access: each of the eight optional attributes
is stored when present and stored as `None` when absent, a missing
optional field never fails the message, while `TimeUS`, `Volt` and
`Curr` are read unconditionally (their absence raises). -/
theorem optional_fields_per_field_tolerant :
    (∀ (m : MavMsg) (t v c : ℚ),
        m.getattr "TimeUS" = some t → m.getattr "Volt" = some v →
        m.getattr "Curr" = some c →
        ∃ rec, processBatMsg m = Except.ok rec ∧
          rec.timestamp = t / 1000000 ∧ rec.Volt = v ∧ rec.Curr = c ∧
          rec.VoltR = m.getattr "VoltR" ∧
          rec.CurrTot = m.getattr "CurrTot" ∧
          rec.EnrgTot = m.getattr "EnrgTot" ∧
          rec.Temp = m.getattr "Temp" ∧
          rec.Res = m.getattr "Res" ∧
          rec.RemPct = m.getattr "RemPct" ∧
          rec.H = m.getattr "H" ∧
          rec.SH = m.getattr "SH" ∧
          (m.hasattr "VoltR" = false → rec.VoltR = none) ∧
          (m.hasattr "CurrTot" = false → rec.CurrTot = none) ∧
          (m.hasattr "EnrgTot" = false → rec.EnrgTot = none) ∧
          (m.hasattr "Temp" = false → rec.Temp = none) ∧
          (m.hasattr "Res" = false → rec.Res = none) ∧
          (m.hasattr "RemPct" = false → rec.RemPct = none) ∧
          (m.hasattr "H" = false → rec.H = none) ∧
          (m.hasattr "SH" = false → rec.SH = none)) ∧
    (∀ m : MavMsg, m.getattr "TimeUS" = none →
        processBatMsg m = Except.error "AttributeError: TimeUS") ∧
    (∀ m : MavMsg, m.getattr "TimeUS" ≠ none → m.getattr "Volt" = none →
        processBatMsg m = Except.error "AttributeError: Volt") ∧
    (∀ m : MavMsg, m.getattr "TimeUS" ≠ none → m.getattr "Volt" ≠ none →
        m.getattr "Curr" = none →
        processBatMsg m = Except.error "AttributeError: Curr") := by
  refine ⟨?_, ?_, ?_, ?_⟩
  · intro m t v c ht hv hc
    refine ⟨_, processBatMsg_total ht hv hc, rfl, rfl, rfl, rfl, rfl, rfl,
      rfl, rfl, rfl, rfl, rfl, ?_, ?_, ?_, ?_, ?_, ?_, ?_, ?_⟩ <;>
      intro hf <;> exact hasattr_false_getattr_none hf
  · intro m ht
    unfold processBatMsg
    rw [ht]
  · intro m ht hv
    cases hx : m.getattr "TimeUS" with
    | none => exact absurd hx ht
    | some t =>
      unfold processBatMsg
      rw [hx, hv]
  · intro m ht hv hc
    cases hx : m.getattr "TimeUS" with
    | none => exact absurd hx ht
    | some t =>
      cases hy : m.getattr "Volt" with
      | none => exact absurd hy hv
      | some v =>
        unfold processBatMsg
        rw [hx, hy, hc]

/-- Witness for C7 at a BAT message that has only the three required
attributes. -/
theorem optional_fields_per_field_tolerant_witness :
    ∃ rec, processBatMsg (mkBatMsg 1000000 12.6) = Except.ok rec ∧
      rec.timestamp = 1000000 / 1000000 ∧ rec.Volt = 12.6 ∧ rec.Curr = 7 ∧
      rec.VoltR = (mkBatMsg 1000000 12.6).getattr "VoltR" ∧
      rec.CurrTot = (mkBatMsg 1000000 12.6).getattr "CurrTot" ∧
      rec.EnrgTot = (mkBatMsg 1000000 12.6).getattr "EnrgTot" ∧
      rec.Temp = (mkBatMsg 1000000 12.6).getattr "Temp" ∧
      rec.Res = (mkBatMsg 1000000 12.6).getattr "Res" ∧
      rec.RemPct = (mkBatMsg 1000000 12.6).getattr "RemPct" ∧
      rec.H = (mkBatMsg 1000000 12.6).getattr "H" ∧
      rec.SH = (mkBatMsg 1000000 12.6).getattr "SH" ∧
      ((mkBatMsg 1000000 12.6).hasattr "VoltR" = false → rec.VoltR = none) ∧
      ((mkBatMsg 1000000 12.6).hasattr "CurrTot" = false →
        rec.CurrTot = none) ∧
      ((mkBatMsg 1000000 12.6).hasattr "EnrgTot" = false →
        rec.EnrgTot = none) ∧
      ((mkBatMsg 1000000 12.6).hasattr "Temp" = false → rec.Temp = none) ∧
      ((mkBatMsg 1000000 12.6).hasattr "Res" = false → rec.Res = none) ∧
      ((mkBatMsg 1000000 12.6).hasattr "RemPct" = false →
        rec.RemPct = none) ∧
      ((mkBatMsg 1000000 12.6).hasattr "H" = false → rec.H = none) ∧
      ((mkBatMsg 1000000 12.6).hasattr "SH" = false → rec.SH = none) :=
  optional_fields_per_field_tolerant.1 (mkBatMsg 1000000 12.6) 1000000 12.6 7
    (by with_unfolding_all rfl) (by with_unfolding_all rfl)
    (by with_unfolding_all rfl)

/-- The loop performs at most the remaining number of attempts. -/
theorem safeRemoveLoop_le :
    ∀ (att : Nat → Bool) (n s : Nat), (safeRemoveLoop att n s).2 ≤ s + n
  | _, 0, s => Nat.le_refl s
  | att, n + 1, s => by
    rw [safeRemoveLoop]
    by_cases ha : att s
    · simp [ha]
    · simp [ha]
      have := safeRemoveLoop_le att n (s + 1)
      omega

/-- The loop returns `true` exactly when some remaining attempt
succeeds. -/
theorem safeRemoveLoop_true_iff :
    ∀ (att : Nat → Bool) (n s : Nat),
      (safeRemoveLoop att n s).1 = true ↔
        ∃ i, i < n ∧ att (s + i) = true
  | att, 0, s => by simp [safeRemoveLoop]
  | att, n + 1, s => by
    rw [safeRemoveLoop]
    by_cases ha : att s
    · simp [ha]
      exact ⟨0, by omega, by simpa using ha⟩
    · simp only [ha, if_false, Bool.false_eq_true]
      rw [safeRemoveLoop_true_iff att n (s + 1)]
      constructor
      · rintro ⟨i, hi, hs⟩
        exact ⟨i + 1, by omega, by rw [show s + (i + 1) = s + 1 + i by omega]; exact hs⟩
      · rintro ⟨i, hi, hs⟩
        cases i with
        | zero => rw [Nat.add_zero] at hs; exact absurd hs (by simp [ha])
        | succ k =>
          exact ⟨k, by omega, by rw [show s + 1 + k = s + (k + 1) by omega]; exact hs⟩

/-- The loop stops at the first successful attempt, having made exactly
that many attempts. -/
theorem safeRemoveLoop_first_success :
    ∀ (att : Nat → Bool) (n s i : Nat), i < n → att (s + i) = true →
      (∀ j, j < i → att (s + j) = false) →
      safeRemoveLoop att n s = (true, s + i + 1)
  | att, n + 1, s, 0, _, hi, _ => by
    rw [safeRemoveLoop]
    rw [Nat.add_zero] at hi
    simp [hi]
  | att, n + 1, s, i + 1, hn, hi, hall => by
    rw [safeRemoveLoop]
    have h0 : att s = false := by
      have := hall 0 (by omega)
      rwa [Nat.add_zero] at this
    simp only [h0, Bool.false_eq_true, if_false]
    have := safeRemoveLoop_first_success att n (s + 1) i (by omega)
      (by rw [show s + 1 + i = s + (i + 1) by omega]; exact hi)
      (fun j hj => by
        rw [show s + 1 + j = s + (j + 1) by omega]
        exact hall (j + 1) (by omega))
    rw [this]
    refine Prod.ext rfl ?_
    simp
    omega
  | att, 0, s, i, hn, _, _ => absurd hn (Nat.not_lt_zero i)

/-- If every remaining attempt fails the loop returns `false` after
making all of them. -/
theorem safeRemoveLoop_all_fail :
    ∀ (att : Nat → Bool) (n s : Nat),
      (∀ i, i < n → att (s + i) = false) →
      safeRemoveLoop att n s = (false, s + n)
  | att, 0, s, _ => by rw [safeRemoveLoop, Nat.add_zero]
  | att, n + 1, s, hall => by
    rw [safeRemoveLoop]
    have h0 : att s = false := by
      have := hall 0 (by omega)
      rwa [Nat.add_zero] at this
    simp only [h0, Bool.false_eq_true, if_false]
    rw [safeRemoveLoop_all_fail att n (s + 1)
      (fun i hi => by
        rw [show s + 1 + i = s + (i + 1) by omega]
        exact hall (i + 1) (by omega))]
    refine Prod.ext rfl ?_
    simp
    omega

/-- C8: `safe_remove_file` performs at most `retries` attempts, returns
`True` at the first success making no further attempts, returns `False`
after all `retries` attempts failed, and (being a total function of its
inputs) never raises. -/
theorem safe_remove_file_bounded_retry :
    ∀ (att : Nat → Bool) (retries : Nat), 1 ≤ retries →
      (safe_remove_file att retries).2 ≤ retries ∧
      ((safe_remove_file att retries).1 = true ↔
        ∃ i, i < retries ∧ att i = true) ∧
      (∀ i, i < retries → att i = true → (∀ j, j < i → att j = false) →
        safe_remove_file att retries = (true, i + 1)) ∧
      ((∀ i, i < retries → att i = false) →
        safe_remove_file att retries = (false, retries)) := by
  intro att retries _
  unfold safe_remove_file
  refine ⟨?_, ?_, ?_, ?_⟩
  · have := safeRemoveLoop_le att retries 0
    omega
  · rw [safeRemoveLoop_true_iff att retries 0]
    simp
  · intro i hi hs hall
    have := safeRemoveLoop_first_success att retries 0 i hi
      (by simpa using hs) (fun j hj => by simpa using hall j hj)
    simpa using this
  · intro hall
    have := safeRemoveLoop_all_fail att retries 0
      (fun i hi => by simpa using hall i hi)
    simpa using this

/-- Witness for C8: an attempt predicate that first succeeds on the third
attempt, with five retries. -/
theorem safe_remove_file_bounded_retry_witness :
    (safe_remove_file (fun i => i == 2) 5).2 ≤ 5 ∧
    ((safe_remove_file (fun i => i == 2) 5).1 = true ↔
      ∃ i, i < 5 ∧ (fun i => i == 2) i = true) ∧
    (∀ i, i < 5 → (fun i => i == 2) i = true →
      (∀ j, j < i → (fun i => i == 2) j = false) →
      safe_remove_file (fun i => i == 2) 5 = (true, i + 1)) ∧
    ((∀ i, i < 5 → (fun i => i == 2) i = false) →
      safe_remove_file (fun i => i == 2) 5 = (false, 5)) :=
  safe_remove_file_bounded_retry (fun i => i == 2) 5 (by decide)

/-- C5: store-then-retrieve round-trip: a successful
`save_processed_data` under a key makes `GET /data/<key>` return exactly
that data with status 200, and a key never stored yields 404 with error
`"Data not found"`. -/
theorem store_retrieve_roundtrip :
    ∀ (store : Store) (key : String) (data : StoredData),
      (save_processed_data store key data).1 = true ∧
      (∀ (ok : Bool) (store2 : Store),
        save_processed_data store key data = (ok, store2) → ok = true →
        get_stored_data store2 key = GetResult.found data 200) ∧
      (List.lookup key store = none →
        get_stored_data store key = GetResult.notFound "Data not found" 404) := by
  intro store key data
  refine ⟨rfl, ?_, ?_⟩
  · intro ok store2 h _
    unfold save_processed_data at h
    injection h with h1 h2
    rw [← h2]
    unfold get_stored_data
    simp [List.lookup]
  · intro h
    unfold get_stored_data
    rw [h]

/-- Witness for C5 at an empty store and a sample object. -/
theorem store_retrieve_roundtrip_witness :
    get_stored_data (("k", sampleStored) :: ([] : Store)) "k" =
        GetResult.found sampleStored 200 ∧
    get_stored_data ([] : Store) "k" =
        GetResult.notFound "Data not found" 404 :=
  ⟨(store_retrieve_roundtrip ([] : Store) "k" sampleStored).2.1 true
      (("k", sampleStored) :: ([] : Store)) rfl rfl,
    (store_retrieve_roundtrip ([] : Store) "k" sampleStored).2.2 rfl⟩

/-! ## Helper lemmas: `upload_bin` -/

/-- Inversion of a 200 response: the checks passed, the log was read, the
battery result was nonempty, and every response component and the stored
entry are determined. -/
theorem upload_bin_success_inv
    (req : UploadRequest) (logRes : Except String (List MavMsg))
    (store : Store) (now : ℚ) (key : String) (bd : List BatteryRecord)
    (mx mn me : Option ℚ) (mt : List String) (store2 : Store) (c : Nat)
    (h : upload_bin req logRes store now =
      (UploadResult.success key bd mx mn me mt, store2, c)) :
    ∃ log res, logRes = Except.ok log ∧
      process_battery_data log = Except.ok res ∧
      res.battery_data ≠ [] ∧
      key = req.keyArg.getD (toString ⌊now⌋) ∧
      bd = uploadResponseData req.limitArg req.fullArg res ∧
      mx = res.max_voltage.map pyRound2 ∧
      mn = res.min_voltage.map pyRound2 ∧
      me = res.mean_voltage.map pyRound2 ∧
      mt = sortedMessageTypes log ∧
      store2 = (key, { battery_data := bd, max_voltage := mx,
                       min_voltage := mn, mean_voltage := me,
                       message_types := mt, timestamp := now }) :: store ∧
      c = 1 := by
  simp only [upload_bin] at h
  split at h
  · exact absurd h (by simp)
  · split at h
    · exact absurd h (by simp)
    · split at h
      · exact absurd h (by simp)
      · split at h
        · exact absurd h (by simp)
        · rename_i log
          split at h
          · exact absurd h (by simp)
          · rename_i res hres
            split at h
            · exact absurd h (by simp)
            · rename_i hne
              split at h
              · rename_i store3 hsave
                unfold save_processed_data at hsave
                injection hsave with hs1 hs2
                injection h with hA hBC
                injection hBC with hB hC
                injection hA with hk hbd hmx hmn hme hmt
                subst hk
                subst hbd
                subst hmx
                subst hmn
                subst hme
                subst hmt
                subst hC
                subst hB
                subst hs2
                refine ⟨log, res, rfl, hres, by simpa using hne, rfl, rfl,
                  rfl, rfl, rfl, rfl, rfl, rfl⟩
              · rename_i hsave
                unfold save_processed_data at hsave
                exact absurd hsave (by simp)

/-- When the checks pass, the log is readable and no BAT record was
collected, `upload_bin` answers the 400 error body. -/
theorem upload_bin_no_bat
    (req : UploadRequest) (log : List MavMsg) (store : Store) (now : ℚ)
    (res : BatteryResult)
    (h1 : req.hasFilePart = true) (h2 : req.filename ≠ "")
    (h3 : req.tempSaveOk = true)
    (hres : process_battery_data log = Except.ok res)
    (hempty : res.battery_data = []) :
    upload_bin req (Except.ok log) store now =
      (UploadResult.badRequest "No BAT messages found in the log"
        (some (sortedMessageTypes log)), store, 1) := by
  simp only [upload_bin]
  rw [if_neg (by simp [h1]), if_neg h2, if_neg (by simp [h3])]
  simp [hres, hempty]

/-- When the checks pass, the log is readable and some BAT record was
collected, `upload_bin` answers the 200 success body and stores the
response under the key. -/
theorem upload_bin_with_bat
    (req : UploadRequest) (log : List MavMsg) (store : Store) (now : ℚ)
    (res : BatteryResult)
    (h1 : req.hasFilePart = true) (h2 : req.filename ≠ "")
    (h3 : req.tempSaveOk = true)
    (hres : process_battery_data log = Except.ok res)
    (hne : res.battery_data ≠ []) :
    upload_bin req (Except.ok log) store now =
      (UploadResult.success (req.keyArg.getD (toString ⌊now⌋))
        (uploadResponseData req.limitArg req.fullArg res)
        (res.max_voltage.map pyRound2) (res.min_voltage.map pyRound2)
        (res.mean_voltage.map pyRound2) (sortedMessageTypes log),
       (req.keyArg.getD (toString ⌊now⌋),
         { battery_data := uploadResponseData req.limitArg req.fullArg res,
           max_voltage := res.max_voltage.map pyRound2,
           min_voltage := res.min_voltage.map pyRound2,
           mean_voltage := res.mean_voltage.map pyRound2,
           message_types := sortedMessageTypes log,
           timestamp := now }) :: store, 1) := by
  simp only [upload_bin]
  rw [if_neg (by simp [h1]), if_neg h2, if_neg (by simp [h3])]
  simp [hres, hne, save_processed_data]

/-- C3 counterexample: a readable log with one GPS message and no BAT
messages makes the upload return an HTTP 400 error body, not an empty
success result. -/
theorem upload_empty_result_counterexample :
    upload_bin plainRequest (Except.ok gpsLog) ([] : Store) 0 =
      (UploadResult.badRequest "No BAT messages found in the log"
        (some ["GPS"]), ([] : Store), 1) ∧
    (upload_bin plainRequest (Except.ok gpsLog) ([] : Store) 0).1.isSuccess
      = false ∧
    (upload_bin plainRequest (Except.ok gpsLog) ([] : Store) 0).1.status
      = 400 := by
  refine ⟨?_, ?_, ?_⟩ <;> with_unfolding_all rfl

/-- C3 (amended): when zero BAT messages are decoded from an otherwise
readable log, the upload returns HTTP 400 with error "No BAT messages
found in the log" and the observed message types — an error response,
not an empty success result. -/
theorem upload_no_bat_messages_is_400_error
    (req : UploadRequest) (log : List MavMsg) (store : Store) (now : ℚ)
    (res : BatteryResult)
    (h1 : req.hasFilePart = true) (h2 : req.filename ≠ "")
    (h3 : req.tempSaveOk = true)
    (hres : process_battery_data log = Except.ok res)
    (hempty : res.battery_data = []) :
    upload_bin req (Except.ok log) store now =
      (UploadResult.badRequest "No BAT messages found in the log"
        (some (sortedMessageTypes log)), store, 1) ∧
    (upload_bin req (Except.ok log) store now).1.status = 400 ∧
    (upload_bin req (Except.ok log) store now).1.isSuccess = false := by
  have e := upload_bin_no_bat req log store now res h1 h2 h3 hres hempty
  refine ⟨e, ?_, ?_⟩ <;> rw [e] <;> rfl

/-- Witness for C3 (amended) at the GPS-only log. -/
theorem upload_no_bat_messages_is_400_error_witness :
    upload_bin plainRequest (Except.ok gpsLog) ([] : Store) 0 =
      (UploadResult.badRequest "No BAT messages found in the log"
        (some (sortedMessageTypes gpsLog)), ([] : Store), 1) ∧
    (upload_bin plainRequest (Except.ok gpsLog) ([] : Store) 0).1.status
      = 400 ∧
    (upload_bin plainRequest (Except.ok gpsLog) ([] : Store) 0).1.isSuccess
      = false :=
  upload_no_bat_messages_is_400_error plainRequest gpsLog ([] : Store) 0
    emptyBatteryResult (by with_unfolding_all rfl)
    (by intro hcon; exact absurd hcon (by with_unfolding_all decide))
    (by with_unfolding_all rfl) (by with_unfolding_all rfl) rfl

/-- C4: on a successful upload, `message_types` in the response and in
the stored data is exactly the sorted set of `get_type()` values of all
messages read from the log, with no duplicates. -/
theorem upload_message_types_sorted_distinct
    (req : UploadRequest) (logRes : Except String (List MavMsg))
    (store : Store) (now : ℚ) (log : List MavMsg) (key : String)
    (bd : List BatteryRecord) (mx mn me : Option ℚ) (mt : List String)
    (store2 : Store) (c : Nat)
    (h : upload_bin req logRes store now =
      (UploadResult.success key bd mx mn me mt, store2, c))
    (hlog : logRes = Except.ok log) :
    mt = sortedMessageTypes log ∧
    mt.Sorted (fun a b => a ≤ b) ∧
    mt.Nodup ∧
    (∀ s, s ∈ mt ↔ s ∈ log.map MavMsg.getType) ∧
    ∃ d, List.lookup key store2 = some d ∧ d.message_types = mt := by
  obtain ⟨log', res, hlog', hres, hne, hk, hbd, hmx, hmn, hme, hmt,
    hstore, hc⟩ := upload_bin_success_inv req logRes store now key bd
      mx mn me mt store2 c h
  rw [hlog] at hlog'
  injection hlog' with he
  subst he
  refine ⟨hmt, ?_, ?_, ?_, ?_⟩
  · rw [hmt]
    exact List.sorted_insertionSort _ _
  · rw [hmt]
    exact (List.perm_insertionSort _ _).nodup_iff.mpr (List.nodup_dedup _)
  · intro s
    rw [hmt]
    simp [sortedMessageTypes, List.mem_insertionSort, List.mem_dedup]
  · rw [hstore]
    exact ⟨{ battery_data := bd, max_voltage := mx, min_voltage := mn,
             mean_voltage := me, message_types := mt, timestamp := now },
      by simp [List.lookup], rfl⟩

/-- Witness for C4 at the scenario log uploaded with no limit. -/
theorem upload_message_types_sorted_distinct_witness :
    (["BAT", "FMT"] : List String) = sortedMessageTypes scenarioLog ∧
    (["BAT", "FMT"] : List String).Sorted (fun a b => a ≤ b) ∧
    (["BAT", "FMT"] : List String).Nodup ∧
    (∀ s, s ∈ (["BAT", "FMT"] : List String) ↔
      s ∈ scenarioLog.map MavMsg.getType) ∧
    ∃ d, List.lookup "k" (("k", sampleStored) :: ([] : Store)) = some d ∧
      d.message_types = ["BAT", "FMT"] :=
  upload_message_types_sorted_distinct plainRequest
    (Except.ok scenarioLog) ([] : Store) 0 scenarioLog "k"
    scenarioRecords (some 12.6) (some 12.4) (some 12.5) ["BAT", "FMT"]
    (("k", sampleStored) :: ([] : Store)) 1
    (by with_unfolding_all rfl) rfl

/-- C9 counterexample: with `?limit=-1` on the three-record scenario log
the response carries the first two records — not the claim's "first
`limit` records" (an empty prefix for a negative count). -/
theorem upload_negative_limit_counterexample :
    (upload_bin limitNegRequest (Except.ok scenarioLog) ([] : Store) 0).1 =
      UploadResult.success "k"
        [scenarioRecord 1 12.6, scenarioRecord 2 12.4]
        (some 12.6) (some 12.4) (some 12.5) ["BAT", "FMT"] ∧
    ¬ ([scenarioRecord 1 12.6, scenarioRecord 2 12.4] =
        scenarioRecords.take (Int.toNat (-1))) := by
  constructor
  · with_unfolding_all rfl
  · rw [show Int.toNat (-1) = 0 from rfl]
    simp

/-- C9 (amended): on a successful upload with an integer `limit` and
`full` not (case-insensitively) 'true', the returned and stored
`battery_data` is the Python slice `[:limit]` of the full result — the
first `limit` records for nonnegative `limit`, all but the last
`|limit|` for negative `limit` — while the three voltage aggregates are
computed (and rounded to 2 decimals) over all BAT records of the log;
with `limit` absent or `full` 'true' the full list is returned. -/
theorem upload_limit_slicing_and_full_aggregates
    (req : UploadRequest) (log : List MavMsg) (store : Store) (now : ℚ)
    (res : BatteryResult)
    (h1 : req.hasFilePart = true) (h2 : req.filename ≠ "")
    (h3 : req.tempSaveOk = true)
    (hres : process_battery_data log = Except.ok res)
    (hne : res.battery_data ≠ []) :
    upload_bin req (Except.ok log) store now =
      (UploadResult.success (req.keyArg.getD (toString ⌊now⌋))
        (uploadResponseData req.limitArg req.fullArg res)
        (res.max_voltage.map pyRound2) (res.min_voltage.map pyRound2)
        (res.mean_voltage.map pyRound2) (sortedMessageTypes log),
       (req.keyArg.getD (toString ⌊now⌋),
         { battery_data := uploadResponseData req.limitArg req.fullArg res,
           max_voltage := res.max_voltage.map pyRound2,
           min_voltage := res.min_voltage.map pyRound2,
           mean_voltage := res.mean_voltage.map pyRound2,
           message_types := sortedMessageTypes log,
           timestamp := now }) :: store, 1) ∧
    ((req.limitArg = none ∨ (req.fullArg.getD "false").toLower = "true") →
      uploadResponseData req.limitArg req.fullArg res =
        res.battery_data) ∧
    (∀ n, req.limitArg = some n →
      (req.fullArg.getD "false").toLower ≠ "true" →
      uploadResponseData req.limitArg req.fullArg res =
          pySliceTo res.battery_data n ∧
        (0 ≤ n → uploadResponseData req.limitArg req.fullArg res =
          res.battery_data.take n.toNat) ∧
        (n < 0 → uploadResponseData req.limitArg req.fullArg res =
          res.battery_data.take
            ((res.battery_data.length : Int) + n).toNat)) ∧
    res.max_voltage = pyMax (batVoltages log) ∧
    res.min_voltage = pyMin (batVoltages log) ∧
    res.mean_voltage = pyMean (batVoltages log) := by
  refine ⟨upload_bin_with_bat req log store now res h1 h2 h3 hres hne,
    ?_, ?_, ?_, ?_, ?_⟩
  · rintro (hl | hf)
    · simp [uploadResponseData, hl]
    · cases hl : req.limitArg with
      | none => simp [uploadResponseData]
      | some n => simp [uploadResponseData, hf]
  · intro n hn hf
    refine ⟨by simp [uploadResponseData, hn, hf], ?_, ?_⟩
    · intro hnn
      simp [uploadResponseData, hn, hf, pySliceTo, hnn]
    · intro hneg
      simp [uploadResponseData, hn, hf, pySliceTo, not_le.mpr hneg]
  all_goals
    unfold process_battery_data at hres
    cases hc : collectBattery log with
    | error e => rw [hc] at hres; exact absurd hres (by simp)
    | ok pr =>
      obtain ⟨recs, volts⟩ := pr
      rw [hc] at hres
      injection hres with hres
      obtain ⟨-, -, hbv⟩ := collectBattery_ok log recs volts hc
      rw [← hres, ← hbv]

/-- Witness for C9 (amended) at the scenario log with `?limit=-1`. -/
theorem upload_limit_slicing_and_full_aggregates_witness :
    upload_bin limitNegRequest (Except.ok scenarioLog) ([] : Store) 0 =
      (UploadResult.success
        (limitNegRequest.keyArg.getD (toString (⌊(0 : ℚ)⌋)))
        (uploadResponseData limitNegRequest.limitArg
          limitNegRequest.fullArg scenarioResult)
        (scenarioResult.max_voltage.map pyRound2)
        (scenarioResult.min_voltage.map pyRound2)
        (scenarioResult.mean_voltage.map pyRound2)
        (sortedMessageTypes scenarioLog),
       (limitNegRequest.keyArg.getD (toString (⌊(0 : ℚ)⌋)),
         { battery_data := uploadResponseData limitNegRequest.limitArg
             limitNegRequest.fullArg scenarioResult,
           max_voltage := scenarioResult.max_voltage.map pyRound2,
           min_voltage := scenarioResult.min_voltage.map pyRound2,
           mean_voltage := scenarioResult.mean_voltage.map pyRound2,
           message_types := sortedMessageTypes scenarioLog,
           timestamp := 0 }) :: ([] : Store), 1) ∧
    ((limitNegRequest.limitArg = none ∨
        (limitNegRequest.fullArg.getD "false").toLower = "true") →
      uploadResponseData limitNegRequest.limitArg limitNegRequest.fullArg
          scenarioResult = scenarioResult.battery_data) ∧
    (∀ n, limitNegRequest.limitArg = some n →
      (limitNegRequest.fullArg.getD "false").toLower ≠ "true" →
      uploadResponseData limitNegRequest.limitArg limitNegRequest.fullArg
            scenarioResult = pySliceTo scenarioResult.battery_data n ∧
        (0 ≤ n → uploadResponseData limitNegRequest.limitArg
          limitNegRequest.fullArg scenarioResult =
            scenarioResult.battery_data.take n.toNat) ∧
        (n < 0 → uploadResponseData limitNegRequest.limitArg
          limitNegRequest.fullArg scenarioResult =
            scenarioResult.battery_data.take
              ((scenarioResult.battery_data.length : Int) + n).toNat)) ∧
    scenarioResult.max_voltage = pyMax (batVoltages scenarioLog) ∧
    scenarioResult.min_voltage = pyMin (batVoltages scenarioLog) ∧
    scenarioResult.mean_voltage = pyMean (batVoltages scenarioLog) :=
  upload_limit_slicing_and_full_aggregates limitNegRequest scenarioLog
    ([] : Store) 0 scenarioResult (by with_unfolding_all rfl)
    (by intro hcon; exact absurd hcon (by with_unfolding_all decide))
    (by with_unfolding_all rfl) (by with_unfolding_all rfl)
    (by intro hcon; exact absurd hcon (by with_unfolding_all decide))

/-- C10: once the upload request has passed the file checks and the temp
save, `safe_remove_file` is invoked on the temp path exactly once before
returning, on the success path, the no-BAT path and the exception
path alike. -/
theorem upload_cleanup_exactly_once
    (req : UploadRequest) (logRes : Except String (List MavMsg))
    (store : Store) (now : ℚ)
    (h1 : req.hasFilePart = true) (h2 : req.filename ≠ "")
    (h3 : req.tempSaveOk = true) :
    (upload_bin req logRes store now).2.2 = 1 := by
  simp only [upload_bin]
  rw [if_neg (by simp [h1]), if_neg h2, if_neg (by simp [h3])]
  split
  · rfl
  · split
    · rfl
    · split
      · rfl
      · split
        · rfl
        · rfl

/-- Witness for C10 on an exception path and a success path. -/
theorem upload_cleanup_exactly_once_witness :
    (upload_bin plainRequest (Except.error "IOError") ([] : Store) 0).2.2
      = 1 ∧
    (upload_bin plainRequest (Except.ok scenarioLog) ([] : Store) 0).2.2
      = 1 :=
  ⟨upload_cleanup_exactly_once plainRequest (Except.error "IOError")
      ([] : Store) 0 (by with_unfolding_all rfl)
      (by intro hcon; exact absurd hcon (by with_unfolding_all decide))
      (by with_unfolding_all rfl),
    upload_cleanup_exactly_once plainRequest (Except.ok scenarioLog)
      ([] : Store) 0 (by with_unfolding_all rfl)
      (by intro hcon; exact absurd hcon (by with_unfolding_all decide))
      (by with_unfolding_all rfl)⟩
